import Mathlib

/-!
Verification of the butler-provider-harvester reconciler and its Harvester
adapter (`internal/harvester/client.go`, `internal/controller` machine-request
reconciler), as a shallow embedding: pure Lean functions mirror the Go control
flow, with the Kubernetes API modelled as a world of resource-existence flags
plus an environment that injects call outcomes (faults, observed VM status,
clock readings).
-/

set_option maxHeartbeats 1000000

namespace ButlerHarvester

/-- Error classes of the Kubernetes API surface used by the code
(`apierrors.IsNotFound`, `apierrors.IsAlreadyExists`, ...), plus a
`generic` class for plain `fmt.Errorf` errors that are not API status
errors.  `fmt.Errorf("...: %w", err)` wrapping preserves the class
(apimachinery unwraps with `errors.As`), so wrapped errors keep their
constructor here. -/
inductive KErr where
  | notFound
  | alreadyExists
  | invalid
  | unauthorized
  | forbidden
  | unavailable
  | generic (msg : String)
deriving DecidableEq, Repr

/-- Model of Go `strings.Contains(s, c)` for a one-character pattern. -/
def strContainsChar (s : String) (c : Char) : Bool := s.data.contains c

/-- Model of Go `strings.HasPrefix(s, pre)`. -/
def strStartsWith (s pre : String) : Bool := s.data.take pre.data.length == pre.data

/-- `isUsableIP` from `client.go`: skip addresses containing a colon
(IPv6), skip addresses starting with `169.254.` (IPv4 link-local),
accept everything else. -/
def isUsableIP (ip : String) : Bool :=
  if strContainsChar ip ':' then false
  else if strStartsWith ip "169.254." then false
  else true

/-- `parseName` from `client.go`: the part after the first `/`, or the
whole string when there is no `/`. -/
def parseName (ref : String) : String :=
  match ref.data.dropWhile (fun c => c ≠ '/') with
  | [] => ref
  | _ :: rest => String.mk rest

/-- Storage class name derived in `createImagePVC`:
`fmt.Sprintf("longhorn-%s", parseName(imageName))`. -/
def imagePVCStorageClass (imageName : String) : String :=
  "longhorn-" ++ parseName imageName

/-- The standard base64 alphabet (RFC 4648), as used by Go
`base64.StdEncoding`. -/
def base64Alphabet : List Char :=
  "ABCDEFGHIJKLMNOPQRSTUVWXYZabcdefghijklmnopqrstuvwxyz0123456789+/".data

/-- Character of the base64 alphabet at a 6-bit index. -/
def b64c (n : Nat) : Char := base64Alphabet.getD n '?'

/-- Standard base64 encoding of a byte list, with `=` padding, as in Go
`base64.StdEncoding.EncodeToString`. -/
def base64EncodeList : List Nat → List Char
  | [] => []
  | [a] => [b64c (a / 4), b64c (a % 4 * 16), '=', '=']
  | [a, b] => [b64c (a / 4), b64c (a % 4 * 16 + b / 16), b64c (b % 16 * 4), '=']
  | a :: b :: c :: rest =>
      b64c (a / 4) :: b64c (a % 4 * 16 + b / 16) :: b64c (b % 16 * 4 + c / 64)
        :: b64c (c % 64) :: base64EncodeList rest

/-- UTF-8 bytes of one character (model of Go's string-to-byte
conversion). -/
def utf8Bytes (c : Char) : List Nat :=
  let n := c.toNat
  if n < 128 then [n]
  else if n < 2048 then [192 + n / 64, 128 + n % 64]
  else if n < 65536 then [224 + n / 4096, 128 + n / 64 % 64, 128 + n % 64]
  else [240 + n / 262144, 128 + n / 4096 % 64, 128 + n / 64 % 64, 128 + n % 64]

/-- Go `base64.StdEncoding.EncodeToString([]byte(s))`: base64 of the
UTF-8 bytes of `s`. -/
def base64Encode (s : String) : String :=
  String.mk (base64EncodeList ((s.data.map utf8Bytes).flatten))

/-- `VMCreateOptions` from `client.go`. -/
structure VMCreateOptions where
  name : String
  cpu : Nat
  memoryMB : Nat
  diskGB : Nat
  imageName : String
  networkName : String
  userData : String
  networkData : String
  labels : List (String × String)
deriving DecidableEq, Repr

/-- `HarvesterProviderConfig` (from the butler-api module): the fields
the adapter reads — target namespace and default image/network. -/
structure HarvesterProviderConfig where
  ns : String
  imageName : String
  networkName : String
deriving DecidableEq, Repr

/-- A volume entry of the constructed VirtualMachine: either the root
PVC volume or the `cloudInitNoCloud` seed volume built by `buildVM`. -/
inductive VMVolume where
  | pvc (name claimName : String)
  | cloudInit (name userDataBase64 : String) (networkDataBase64 : Option String)
deriving DecidableEq, Repr

/-- A disk entry of the constructed VirtualMachine. -/
structure VMDisk where
  name : String
  bootOrder : Option Nat
  bus : String
deriving DecidableEq, Repr

/-- The VirtualMachine object constructed by `buildVM`, with the nested
unstructured map flattened to the fields the code actually sets. -/
structure VirtualMachineObj where
  name : String
  ns : String
  labels : List (String × String)
  runStrategy : String
  cpuCores : Nat
  cpuSockets : Nat
  cpuThreads : Nat
  memoryGuest : String
  disks : List VMDisk
  volumes : List VMVolume
  networkName : String
deriving DecidableEq, Repr

/-- `Client.buildVM` from `client.go`: root disk volume/disk always; a
`cloudinit` volume and disk only when `opts.UserData != ""`, carrying
the base64 user data and — only when additionally
`opts.NetworkData != ""` — the base64 network data. -/
def buildVM (ns : String) (opts : VMCreateOptions) (pvcName networkName : String) :
    VirtualMachineObj :=
  let labels := ("butler.butlerlabs.dev/managed-by", "butler-provider-harvester") :: opts.labels
  let baseVolumes : List VMVolume := [VMVolume.pvc "rootdisk" pvcName]
  let baseDisks : List VMDisk := [⟨"rootdisk", some 1, "virtio"⟩]
  let volumes :=
    if opts.userData ≠ "" then
      baseVolumes ++ [VMVolume.cloudInit "cloudinit" (base64Encode opts.userData)
        (if opts.networkData ≠ "" then some (base64Encode opts.networkData) else none)]
    else baseVolumes
  let disks :=
    if opts.userData ≠ "" then baseDisks ++ [⟨"cloudinit", none, "virtio"⟩]
    else baseDisks
  { name := opts.name
    ns := ns
    labels := labels
    runStrategy := "Always"
    cpuCores := opts.cpu
    cpuSockets := 1
    cpuThreads := 1
    memoryGuest := toString opts.memoryMB ++ "Mi"
    disks := disks
    volumes := volumes
    networkName := networkName }

/-- Existence state of the external resources tied to one
MachineRequest identity: the root-disk PVC, the VirtualMachine, and its
VirtualMachineInstance. -/
structure World where
  pvcExists : Bool
  vmExists : Bool
  vmiExists : Bool
deriving DecidableEq, Repr

/-- One reported interface of the VirtualMachineInstance status. -/
structure VMIInterface where
  ipAddress : String
  mac : String
deriving DecidableEq, Repr

/-- Outcome of resolving the ProviderConfig and constructing the
Harvester client at the top of `Reconcile`, in code order:
`getProviderConfig` error, non-Harvester provider, or
`createHarvesterClient` error. -/
inductive ConfigOutcome where
  | configError (msg : String)
  | wrongProvider
  | clientError (msg : String)
  | ok
deriving DecidableEq, Repr

/-- Environment of one reconciliation pass: config/client resolution
outcome, injected faults for each external API call (`none` means the
call behaves nominally against the `World`), the observed VM/VMI status
fields, the UID the API would assign a created VM, the clock, and the
provider config. -/
structure Env where
  configOutcome : ConfigOutcome
  pvcCreateFault : Option KErr
  vmCreateFault : Option KErr
  vmGetFault : Option KErr
  vmDeleteFault : Option KErr
  pvcDeleteFault : Option KErr
  vmReady : Bool
  vmPrintableStatus : String
  vmiInterfaces : List VMIInterface
  newUID : String
  time : Nat
  cfg : HarvesterProviderConfig
deriving Repr

/-- External API calls the adapter can issue, for call-trace
bookkeeping. -/
inductive ACall where
  | pvcCreate
  | vmCreate
  | pvcDelete
  | vmDelete
  | vmGet
  | vmiGet
deriving DecidableEq, Repr

/-- PVC create call: injected fault, else `AlreadyExists` when present,
else success. -/
def apiPVCCreate (w : World) (env : Env) : Except KErr Unit × World :=
  match env.pvcCreateFault with
  | some e => (.error e, w)
  | none =>
      if w.pvcExists then (.error .alreadyExists, w)
      else (.ok (), { w with pvcExists := true })

/-- VM create call: injected fault, else `AlreadyExists` when present,
else success returning the assigned UID. -/
def apiVMCreate (w : World) (env : Env) : Except KErr String × World :=
  match env.vmCreateFault with
  | some e => (.error e, w)
  | none =>
      if w.vmExists then (.error .alreadyExists, w)
      else (.ok env.newUID, { w with vmExists := true })

/-- VM delete call: injected fault, else `NotFound` when absent, else
success removing the VM (and its instance). -/
def apiVMDelete (w : World) (env : Env) : Except KErr Unit × World :=
  match env.vmDeleteFault with
  | some e => (.error e, w)
  | none =>
      if w.vmExists then (.ok (), { w with vmExists := false, vmiExists := false })
      else (.error .notFound, w)

/-- PVC delete call: injected fault, else `NotFound` when absent, else
success removing the PVC. -/
def apiPVCDelete (w : World) (env : Env) : Except KErr Unit × World :=
  match env.pvcDeleteFault with
  | some e => (.error e, w)
  | none =>
      if w.pvcExists then (.ok (), { w with pvcExists := false })
      else (.error .notFound, w)

/-- VM get call: injected fault, else `NotFound` when absent. -/
def apiVMGet (w : World) (env : Env) : Except KErr Unit :=
  match env.vmGetFault with
  | some e => .error e
  | none => if w.vmExists then .ok () else .error .notFound

/-- Result of an adapter operation: typed outcome, resulting world, and
the trace of API calls issued. -/
structure AdapterOut (α : Type) where
  result : Except KErr α
  world : World
  calls : List ACall
deriving Repr

/-- `Client.createImagePVC` from `client.go`: issues the PVC create
call and returns its outcome unchanged. -/
def createImagePVC (w : World) (env : Env) : Except KErr Unit × World :=
  apiPVCCreate w env

/-- `Client.CreateVM` from `client.go`: resolve the image (options,
then config default, else error); create the PVC first; on PVC error
return it (wrapped, class preserved) with no VM call; else create the
VM; on VM error issue a best-effort PVC delete (outcome ignored) and
return the VM error; else return the created UID. -/
def clientCreateVM (opts : VMCreateOptions) (cfg : HarvesterProviderConfig)
    (w : World) (env : Env) : AdapterOut String :=
  let imageName := if opts.imageName = "" then cfg.imageName else opts.imageName
  if imageName = "" then
    ⟨.error (.generic "no image specified and no default image in provider config"), w, []⟩
  else
    match createImagePVC w env with
    | (.error e, w1) => ⟨.error e, w1, [.pvcCreate]⟩
    | (.ok _, w1) =>
        match apiVMCreate w1 env with
        | (.error e, w2) =>
            let (_, w3) := apiPVCDelete w2 env
            ⟨.error e, w3, [.pvcCreate, .vmCreate, .pvcDelete]⟩
        | (.ok uid, w2) => ⟨.ok uid, w2, [.pvcCreate, .vmCreate]⟩

/-- `Client.DeleteVM` from `client.go`: delete the VM first; on any VM
delete error return it immediately (no PVC call); else issue the PVC
delete with its outcome ignored and return success. -/
def clientDeleteVM (w : World) (env : Env) : AdapterOut Unit :=
  match apiVMDelete w env with
  | (.error e, w1) => ⟨.error e, w1, [.vmDelete]⟩
  | (.ok _, w1) =>
      let (_, w2) := apiPVCDelete w1 env
      ⟨.ok (), w2, [.vmDelete, .pvcDelete]⟩

/-- `VMStatus` from `client.go`. -/
structure VMStatus where
  present : Bool
  ready : Bool
  phase : String
  ipAddress : String
  macAddress : String
deriving DecidableEq, Repr

/-- Interface selection loop of `Client.GetVMStatus`: first interface
whose address is non-empty and usable. -/
def selectIface (ifaces : List VMIInterface) : Option VMIInterface :=
  ifaces.find? (fun i => !(i.ipAddress == "") && isUsableIP i.ipAddress)

/-- `Client.GetVMStatus` from `client.go`: VM get error is returned as
is; else ready/phase are read from the VM; a VMI read failure (the VMI
not existing yet) is swallowed, returning the status without address;
else the first usable interface's address and MAC are recorded. -/
def clientGetVMStatus (w : World) (env : Env) : AdapterOut VMStatus :=
  match apiVMGet w env with
  | .error e => ⟨.error e, w, [.vmGet]⟩
  | .ok _ =>
      let base : VMStatus :=
        { present := true, ready := env.vmReady, phase := env.vmPrintableStatus
          ipAddress := "", macAddress := "" }
      if w.vmiExists then
        match selectIface env.vmiInterfaces with
        | some i =>
            ⟨.ok { base with ipAddress := i.ipAddress, macAddress := i.mac }, w,
              [.vmGet, .vmiGet]⟩
        | none => ⟨.ok base, w, [.vmGet, .vmiGet]⟩
      else ⟨.ok base, w, [.vmGet, .vmiGet]⟩

/-- One status condition entry (`metav1.Condition` as used by the
reconciler): type, status string, reason, message, observed
generation. -/
structure Condition where
  ctype : String
  cstatus : String
  reason : String
  message : String
  observedGeneration : Nat
deriving DecidableEq, Repr

/-- `meta.SetStatusCondition`: replace the entry with the same type in
place, else append. -/
def setStatusCondition (conds : List Condition) (c : Condition) : List Condition :=
  if conds.any (fun x => x.ctype == c.ctype) then
    conds.map (fun x => if x.ctype = c.ctype then c else x)
  else conds ++ [c]

/-- `MachineRequest.Spec` (butler-api): the fields this controller
reads. -/
structure MachineRequestSpec where
  machineName : String
  cpu : Nat
  memoryMB : Nat
  diskGB : Nat
  image : String
  userData : String
  networkData : String
  labels : List (String × String)
deriving DecidableEq, Repr

/-- `MachineRequest.Status` (butler-api): the fields this controller
reads and writes. -/
structure MachineRequestStatus where
  phase : String
  providerID : String
  ipAddress : String
  macAddress : String
  failureReason : String
  failureMessage : String
  conditions : List Condition
  lastUpdated : Option Nat
  observedGeneration : Nat
deriving DecidableEq, Repr

/-- A `MachineRequest` record: deletion marker, finalizer list,
generation, spec and status. -/
structure MachineRequest where
  deletionTimestamp : Option Nat
  finalizers : List String
  generation : Nat
  spec : MachineRequestSpec
  status : MachineRequestStatus
deriving DecidableEq, Repr

/-- The finalizer string from the controller. -/
def finalizerName : String := "machinerequest.butler.butlerlabs.dev/harvester-finalizer"

/-- `requeueShort` (10 s), in seconds. -/
def requeueShort : Nat := 10

/-- `requeueLong` (30 s), in seconds. -/
def requeueLong : Nat := 30

/-- `ReasonProviderError` constant of butler-api (value mirrors its
name; no claim depends on the exact string). -/
def reasonProviderError : String := "ProviderError"

/-- Rendered message text for an error class, standing in for Go error
strings (no claim depends on the exact text). -/
def kerrMessage : KErr → String
  | .notFound => "not found"
  | .alreadyExists => "already exists"
  | .invalid => "invalid"
  | .unauthorized => "unauthorized"
  | .forbidden => "forbidden"
  | .unavailable => "unavailable"
  | .generic m => m

/-- Modelled from the spec: `MachineRequest.SetFailure` is defined in
the external butler-api module and its body is absent from the source
tree; per the spec (§7 propagation policy: permanent failures "mutate
status to Failed and flip the `Ready` condition to False with
reason/message"; §8: not-found while Running yields `Failed` with
`Ready=False`) it moves the phase to `Failed`, records the failure
reason and message, and sets the `Ready` condition to `False`. -/
def setFailure (mr : MachineRequest) (reason message : String) : MachineRequest :=
  { mr with status := { mr.status with
      phase := "Failed"
      failureReason := reason
      failureMessage := message
      conditions := setStatusCondition mr.status.conditions
        ⟨"Ready", "False", reason, message, mr.generation⟩ } }

/-- Result of one reconciliation pass: the persisted record, the
resulting world, the external calls issued, the requeue decision
(immediate flag and optional delay in seconds), and how many status
writes were performed. -/
structure StepOut where
  mr : MachineRequest
  world : World
  calls : List ACall
  requeue : Bool
  requeueAfter : Option Nat
  statusWrites : Nat
deriving DecidableEq, Repr

/-- `updatePhase` helper of the reconciler: set the phase, stamp
last-updated, persist, and request an immediate requeue. -/
def updatePhase (mr : MachineRequest) (w : World) (calls : List ACall)
    (phase : String) (time : Nat) : StepOut :=
  ⟨{ mr with status := { mr.status with phase := phase, lastUpdated := some time } },
    w, calls, true, none, 1⟩

/-- `updateStatusError` helper of the reconciler: `SetFailure`, set the
`Ready` condition to `False` with the same reason/message, persist,
emit an event, and finish the pass with no requeue request. -/
def updateStatusError (mr : MachineRequest) (w : World) (calls : List ACall)
    (reason message : String) : StepOut :=
  let mr1 := setFailure mr reason message
  let mr2 := { mr1 with status := { mr1.status with
      conditions := setStatusCondition mr1.status.conditions
        ⟨"Ready", "False", reason, message, mr.generation⟩ } }
  ⟨mr2, w, calls, false, none, 1⟩

/-- The `VMCreateOptions` value `reconcilePending` builds from the
record's spec (NetworkName is not set there; the config default
applies). -/
def pendingOpts (mr : MachineRequest) : VMCreateOptions :=
  { name := mr.spec.machineName, cpu := mr.spec.cpu, memoryMB := mr.spec.memoryMB
    diskGB := mr.spec.diskGB, imageName := mr.spec.image, networkName := ""
    userData := mr.spec.userData, networkData := mr.spec.networkData
    labels := mr.spec.labels }

/-- `reconcilePending`: build `VMCreateOptions` from the spec and call
`CreateVM`; `AlreadyExists` moves the phase to `Creating` (immediate
requeue); any other error goes through `updateStatusError` with
`ReasonProviderError`; success records the provider ID, moves to
`Creating`, clears failure fields, sets `Progressing=True`, and
requeues after the short delay. -/
def reconcilePending (mr : MachineRequest) (w : World) (env : Env) : StepOut :=
  let a := clientCreateVM (pendingOpts mr) env.cfg w env
  match a.result with
  | .error e =>
      if e = .alreadyExists then
        updatePhase mr a.world a.calls "Creating" env.time
      else
        updateStatusError mr a.world a.calls reasonProviderError (kerrMessage e)
  | .ok uid =>
      let mr1 := { mr with status := { mr.status with
          providerID := uid
          phase := "Creating"
          failureReason := ""
          failureMessage := ""
          lastUpdated := some env.time
          observedGeneration := mr.generation
          conditions := setStatusCondition mr.status.conditions
            ⟨"Progressing", "True", "Creating", "VM is being created", mr.generation⟩ } }
      ⟨mr1, a.world, a.calls, false, some requeueShort, 1⟩

/-- `reconcileCreating`: read the VM status; `NotFound` goes back to
`Pending` (immediate requeue); any other error only requeues after the
short delay with the record untouched; a usable address moves to
`Running` recording address/MAC and setting `Ready=True`,
`Progressing=False`; no address yet updates the `Progressing`
condition and requeues after the short delay. -/
def reconcileCreating (mr : MachineRequest) (w : World) (env : Env) : StepOut :=
  let a := clientGetVMStatus w env
  match a.result with
  | .error e =>
      if e = .notFound then updatePhase mr a.world a.calls "Pending" env.time
      else ⟨mr, a.world, a.calls, false, some requeueShort, 0⟩
  | .ok st =>
      if st.ipAddress ≠ "" then
        let mr1 := { mr with status := { mr.status with
            phase := "Running"
            ipAddress := st.ipAddress
            macAddress := st.macAddress
            lastUpdated := some env.time
            conditions := setStatusCondition
              (setStatusCondition mr.status.conditions
                ⟨"Ready", "True", "Running",
                  "VM is running with IP " ++ st.ipAddress, mr.generation⟩)
              ⟨"Progressing", "False", "Running", "VM creation complete", mr.generation⟩ } }
        ⟨mr1, a.world, a.calls, false, none, 1⟩
      else
        let mr1 := { mr with status := { mr.status with
            conditions := setStatusCondition mr.status.conditions
              ⟨"Progressing", "True", "WaitingForIP",
                "VM phase: " ++ st.phase ++ ", waiting for IP address", mr.generation⟩ } }
        ⟨mr1, a.world, a.calls, false, some requeueShort, 1⟩

/-- `reconcileRunning`: read the VM status; `NotFound` marks the record
failed via `SetFailure("VMDeleted", ...)`; any other error only
requeues after the long delay with the record untouched; a non-empty
observed address different from the recorded one updates only the
address and last-updated stamp; otherwise nothing is written. -/
def reconcileRunning (mr : MachineRequest) (w : World) (env : Env) : StepOut :=
  let a := clientGetVMStatus w env
  match a.result with
  | .error e =>
      if e = .notFound then
        ⟨setFailure mr "VMDeleted" "VM was deleted externally", a.world, a.calls,
          false, none, 1⟩
      else ⟨mr, a.world, a.calls, false, some requeueLong, 0⟩
  | .ok st =>
      if st.ipAddress ≠ "" ∧ st.ipAddress ≠ mr.status.ipAddress then
        ⟨{ mr with status := { mr.status with
            ipAddress := st.ipAddress, lastUpdated := some env.time } },
          a.world, a.calls, false, some requeueLong, 1⟩
      else ⟨mr, a.world, a.calls, false, some requeueLong, 0⟩

/-- `reconcileDelete`: move the phase to `Deleting` (persisting) if not
already there; call `DeleteVM`; a non-`NotFound` error requeues after
the short delay keeping the finalizer; otherwise (success or
`NotFound`) remove the finalizer and finish. -/
def reconcileDelete (mr : MachineRequest) (w : World) (env : Env) : StepOut :=
  let step1 :=
    if mr.status.phase ≠ "Deleting" then
      ({ mr with status := { mr.status with
          phase := "Deleting", lastUpdated := some env.time } }, 1)
    else (mr, 0)
  let mr1 := step1.1
  let a := clientDeleteVM w env
  match a.result with
  | .error e =>
      if e ≠ .notFound then ⟨mr1, a.world, a.calls, false, some requeueShort, step1.2⟩
      else
        ⟨{ mr1 with finalizers := mr1.finalizers.filter (fun f => f ≠ finalizerName) },
          a.world, a.calls, false, none, step1.2⟩
  | .ok _ =>
      ⟨{ mr1 with finalizers := mr1.finalizers.filter (fun f => f ≠ finalizerName) },
        a.world, a.calls, false, none, step1.2⟩

/-- `Reconcile` (one pass), in code order: ProviderConfig resolution
error → `updateStatusError("ProviderConfigError")`; non-Harvester
provider → no-op; client construction error →
`updateStatusError("HarvesterClientError")`; deletion intent →
`reconcileDelete`; missing finalizer → add it, persist, request an
immediate requeue, and do nothing else this pass; else dispatch on the
phase, with `Failed` a no-op and unrecognized phases reset to
`Pending`. -/
def reconcile (mr : MachineRequest) (w : World) (env : Env) : StepOut :=
  match env.configOutcome with
  | .configError m => updateStatusError mr w [] "ProviderConfigError" m
  | .wrongProvider => ⟨mr, w, [], false, none, 0⟩
  | .clientError m => updateStatusError mr w [] "HarvesterClientError" m
  | .ok =>
      if mr.deletionTimestamp.isSome then reconcileDelete mr w env
      else if finalizerName ∈ mr.finalizers then
        if mr.status.phase = "" ∨ mr.status.phase = "Pending" then reconcilePending mr w env
        else if mr.status.phase = "Creating" then reconcileCreating mr w env
        else if mr.status.phase = "Running" then reconcileRunning mr w env
        else if mr.status.phase = "Failed" then ⟨mr, w, [], false, none, 0⟩
        else updatePhase mr w [] "Pending" env.time
      else
        ⟨{ mr with finalizers := mr.finalizers ++ [finalizerName] }, w, [], true, none, 0⟩

/-- A freshly created record: empty phase, no finalizers, no deletion
marker. -/
def isInitial (mr : MachineRequest) : Prop :=
  mr.status.phase = "" ∧ mr.finalizers = [] ∧ mr.deletionTimestamp = none

/-- Reachable (record, world) states: start from a fresh record and an
empty world; take reconciliation passes under arbitrary environments;
let the platform delete the VM externally; let the record's owner mark
it for deletion. -/
inductive Reach : MachineRequest → World → Prop where
  | init : ∀ mr, isInitial mr → Reach mr ⟨false, false, false⟩
  | step : ∀ mr w env, Reach mr w →
      Reach (reconcile mr w env).mr (reconcile mr w env).world
  | extDeleteVM : ∀ mr w, Reach mr w →
      Reach mr { w with vmExists := false, vmiExists := false }
  | markDeleted : ∀ mr w t, Reach mr w →
      Reach { mr with deletionTimestamp := some t } w

/-- The selection predicate of the `GetVMStatus` interface loop, named:
non-empty address that `isUsableIP` accepts. -/
def usableIface (i : VMIInterface) : Bool :=
  !(i.ipAddress == "") && isUsableIP i.ipAddress

/-- Spec-side (not from the source): a decimal octet 0..255, at most
three digits. -/
def isOctetChars (cs : List Char) : Bool :=
  !(cs == []) && cs.all Char.isDigit && cs.length ≤ 3 &&
    decide (cs.foldl (fun n c => n * 10 + (c.toNat - 48)) 0 ≤ 255)

/-- Splitting a character list on `.`. -/
def splitOnDot : List Char → List (List Char)
  | [] => [[]]
  | c :: rest =>
      let r := splitOnDot rest
      if c = '.' then [] :: r
      else
        match r with
        | [] => [[c]]
        | h :: t => (c :: h) :: t

/-- Spec-side (not from the source): syntactically an IPv4 dotted quad,
used to compare the code's address filter against the spec's
"syntactically IPv4" wording. -/
def isIPv4 (s : String) : Bool :=
  match splitOnDot s.data with
  | [a, b, c, d] => isOctetChars a && isOctetChars b && isOctetChars c && isOctetChars d
  | _ => false

/-- No injected fault on any external call: every call behaves
nominally against the world. -/
def noFaults (env : Env) : Prop :=
  env.pvcCreateFault = none ∧ env.vmCreateFault = none ∧ env.vmGetFault = none ∧
    env.vmDeleteFault = none ∧ env.pvcDeleteFault = none

/-- Position of a phase along the forward path Pending → Creating →
Running (`none` for phases off that path). -/
def forwardRank (p : String) : Option Nat :=
  if p = "" ∨ p = "Pending" then some 0
  else if p = "Creating" then some 1
  else if p = "Running" then some 2
  else none

/-- Both phases lie on the forward path and the second is strictly
earlier than the first. -/
def movesBackward (p q : String) : Prop :=
  ∃ a b, forwardRank p = some a ∧ forwardRank q = some b ∧ b < a

/-- Concrete spec used by witnesses (the §8 scenario record). -/
def spec0 : MachineRequestSpec :=
  ⟨"alpha-cp-0", 4, 16384, 100, "default/img1", "", "", []⟩

/-- Concrete empty status. -/
def status0 : MachineRequestStatus := ⟨"", "", "", "", "", "", [], none, 0⟩

/-- Concrete fresh record. -/
def mr0 : MachineRequest := ⟨none, [], 1, spec0, status0⟩

/-- Concrete empty world. -/
def w0 : World := ⟨false, false, false⟩

/-- Concrete provider config. -/
def cfg0 : HarvesterProviderConfig := ⟨"default", "", "vlan1"⟩

/-- Concrete fault-free environment. -/
def envOk : Env :=
  ⟨.ok, none, none, none, none, none, false, "Starting", [], "uid-1", 100, cfg0⟩

/-- Concrete record in phase `Pending` with the finalizer attached. -/
def mrPending : MachineRequest :=
  { mr0 with finalizers := [finalizerName],
             status := { status0 with phase := "Pending" } }

/-- Concrete record in phase `Creating` with the finalizer attached. -/
def mrCreating : MachineRequest :=
  { mr0 with finalizers := [finalizerName],
             status := { status0 with phase := "Creating", providerID := "uid-1" } }

/-- Concrete record in phase `Running` with a recorded address. -/
def mrRunning : MachineRequest :=
  { mr0 with
      finalizers := [finalizerName]
      status := { status0 with
        phase := "Running"
        providerID := "uid-1"
        ipAddress := "10.0.0.9"
        macAddress := "aa:bb:cc" } }

/-- Concrete record in phase `Failed`. -/
def mrFailed : MachineRequest :=
  { mr0 with finalizers := [finalizerName],
             status := { status0 with phase := "Failed", failureReason := "VMDeleted" } }

/-- Environment injecting an `Unavailable` fault into the PVC create
call. -/
def envUnavail : Env := { envOk with pvcCreateFault := some .unavailable }

/-- Environment whose ProviderConfig resolution fails. -/
def envCfgErr : Env := { envOk with configOutcome := .configError "ProviderConfig missing" }

/-- Environment reporting the spec §8 interface list (link-local IPv4,
IPv6, then a usable IPv4 address). -/
def envIfaces : Env :=
  { envOk with vmReady := true, vmPrintableStatus := "Running",
               vmiInterfaces := [⟨"169.254.1.5", "ll:ll"⟩, ⟨"fe80::1", "v6:v6"⟩,
                                 ⟨"10.0.0.7", "aa:bb:cc"⟩] }

/-- Environment reporting one interface whose address equals the
address already recorded on `mrRunning`. -/
def envSameIP : Env := { envOk with vmiInterfaces := [⟨"10.0.0.9", "zz:zz"⟩] }

/-- Concrete options used by the saga witness. -/
def optsC6 : VMCreateOptions := ⟨"alpha-cp-0", 4, 16384, 100, "default/img1", "", "", "", []⟩

/-- Environment injecting an `Unavailable` fault into the VM create
call. -/
def envVMFault : Env := { envOk with vmCreateFault := some .unavailable }

/-- Environment injecting an `Unavailable` fault into the VM get
call. -/
def envGetFault : Env := { envOk with vmGetFault := some .unavailable }

/-- Concrete record carrying an unrecognized phase value. -/
def mrUnknown : MachineRequest :=
  { mr0 with finalizers := [finalizerName],
             status := { status0 with phase := "Provisioning" } }

/-- Concrete record marked for deletion by its owner. -/
def mrDeleting : MachineRequest := { mrRunning with deletionTimestamp := some 5 }

/-- Concrete fresh record marked for deletion before any finalizer was
attached. -/
def mrDel0 : MachineRequest := { mr0 with deletionTimestamp := some 3 }

/-- Guard-token invariant over records not in deletion: either the
finalizer is present, or the record is still in the pre-attachment
`Pending`/unset phase, or it reached `Failed` through a
ProviderConfig-resolution or client-construction error (both of which
the code runs before the finalizer check). -/
def guardInv (mr : MachineRequest) : Prop :=
  mr.deletionTimestamp = none →
    (finalizerName ∈ mr.finalizers ∨
      mr.status.phase = "" ∨ mr.status.phase = "Pending" ∨
      (mr.status.phase = "Failed" ∧
        (mr.status.failureReason = "ProviderConfigError" ∨
          mr.status.failureReason = "HarvesterClientError")))

/-- Pass 1 of the nominal trace: the finalizer is attached. -/
def stepA : StepOut := reconcile mr0 w0 envOk

/-- Pass 2 of the nominal trace: disk and VM are created, the phase
moves to `Creating`. -/
def stepB : StepOut := reconcile stepA.mr stepA.world envOk

/-- The world after pass 2 once the platform deletes the VM
externally. -/
def worldB : World := { stepB.world with vmExists := false, vmiExists := false }

/-- Pass 3 of the trace: phase `Creating` observes `NotFound` and the
reconciler resets the phase to `Pending`. -/
def stepC : StepOut := reconcile stepB.mr worldB envOk

theorem setStatusCondition_mem (conds : List Condition) (c : Condition) :
    c ∈ setStatusCondition conds c := by
  unfold setStatusCondition
  split
  · next h =>
      rw [List.any_eq_true] at h
      obtain ⟨x, hx, hxt⟩ := h
      rw [beq_iff_eq] at hxt
      exact List.mem_map.mpr ⟨x, hx, by rw [if_pos hxt]⟩
  · exact List.mem_append_right _ (List.mem_singleton.mpr rfl)

theorem find?_decomp {α : Type} (p : α → Bool) :
    ∀ (l : List α) (i : α), l.find? p = some i →
      p i = true ∧ ∃ pre post, l = pre ++ i :: post ∧ ∀ j ∈ pre, p j = false := by
  intro l
  induction l with
  | nil => intro i h; simp [List.find?] at h
  | cons a t ih =>
      intro i h
      by_cases hp : p a
      · rw [List.find?_cons_of_pos _ hp] at h
        cases h
        exact ⟨hp, [], t, rfl, by simp⟩
      · rw [List.find?_cons_of_neg _ (by simpa using hp)] at h
        obtain ⟨hpi, pre, post, hl, hpre⟩ := ih i h
        refine ⟨hpi, a :: pre, post, by simp [hl], ?_⟩
        intro j hj
        rcases List.mem_cons.mp hj with rfl | hj
        · simpa using hp
        · exact hpre j hj

/-- C6: for every provisioning attempt, the disk (PVC) is created
first; the VM create is issued only when the disk create succeeded; if
the VM create then fails, a compensating disk delete is issued with its
own outcome ignored and the original VM-create error is the one
returned; if the disk create itself fails, no VM create is attempted. -/
theorem createVM_saga (opts : VMCreateOptions) (cfg : HarvesterProviderConfig)
    (w : World) (env : Env)
    (himg : (if opts.imageName = "" then cfg.imageName else opts.imageName) ≠ "") :
    (∀ e w1, createImagePVC w env = (Except.error e, w1) →
      clientCreateVM opts cfg w env = ⟨Except.error e, w1, [ACall.pvcCreate]⟩) ∧
    (∀ w1 e w2, createImagePVC w env = (Except.ok (), w1) →
      apiVMCreate w1 env = (Except.error e, w2) →
      clientCreateVM opts cfg w env =
        ⟨Except.error e, (apiPVCDelete w2 env).2,
          [ACall.pvcCreate, ACall.vmCreate, ACall.pvcDelete]⟩) ∧
    (∀ w1 uid w2, createImagePVC w env = (Except.ok (), w1) →
      apiVMCreate w1 env = (Except.ok uid, w2) →
      clientCreateVM opts cfg w env =
        ⟨Except.ok uid, w2, [ACall.pvcCreate, ACall.vmCreate]⟩) := by
  refine ⟨?_, ?_, ?_⟩
  · intro e w1 h
    simp only [clientCreateVM, if_neg himg, h]
  · intro w1 e w2 h1 h2
    simp only [clientCreateVM, if_neg himg, h1, h2]
  · intro w1 uid w2 h1 h2
    simp only [clientCreateVM, if_neg himg, h1, h2]

/-- Witness for `createVM_saga`: disk created, VM create fails with
`Unavailable`, compensating disk delete runs (the PVC is gone again)
and the VM error is returned. -/
theorem createVM_saga_witness :
    clientCreateVM optsC6 cfg0 w0 envVMFault =
      ⟨Except.error KErr.unavailable, ⟨false, false, false⟩,
        [ACall.pvcCreate, ACall.vmCreate, ACall.pvcDelete]⟩ :=
  ((createVM_saga optsC6 cfg0 w0 envVMFault (by decide)).2.1
    ⟨true, false, false⟩ KErr.unavailable ⟨true, false, false⟩ rfl rfl).trans rfl

/-- C1 counterexample: with the VM already absent and its root PVC
still present, `DeleteVM` returns the `NotFound` error immediately and
never issues the disk delete — the PVC survives.  This refutes the
claim that disk deletion is attempted unconditionally after the VM
delete and that a `NotFound` VM delete still results in the disk delete
being issued with no error returned. -/
theorem deleteVM_notFound_skips_disk :
    clientDeleteVM ⟨true, false, false⟩ envOk =
      ⟨Except.error KErr.notFound, ⟨true, false, false⟩, [ACall.vmDelete]⟩ ∧
    ACall.pvcDelete ∉ (clientDeleteVM ⟨true, false, false⟩ envOk).calls ∧
    (clientDeleteVM ⟨true, false, false⟩ envOk).world.pvcExists = true :=
  ⟨rfl, by decide, rfl⟩

/-- C1 (amended): `DeleteVM` attempts the VM delete first; only when it
succeeds is the disk delete issued, with its own outcome ignored; any
VM delete error — including `NotFound` for an absent VM — is returned
as is with the disk delete skipped; the reconciler tolerates the
`NotFound` case by removing the finalizer and finishing without a
retry, but no disk delete was issued in that pass. -/
theorem deleteVM_protocol (w : World) (env : Env) :
    (∀ e w1, apiVMDelete w env = (Except.error e, w1) →
      clientDeleteVM w env = ⟨Except.error e, w1, [ACall.vmDelete]⟩) ∧
    (∀ w1, apiVMDelete w env = (Except.ok (), w1) →
      clientDeleteVM w env =
        ⟨Except.ok (), (apiPVCDelete w1 env).2, [ACall.vmDelete, ACall.pvcDelete]⟩) ∧
    (∀ mr, env.configOutcome = ConfigOutcome.ok → mr.deletionTimestamp.isSome = true →
      (clientDeleteVM w env).result = Except.error KErr.notFound →
      (reconcile mr w env).mr.finalizers =
        mr.finalizers.filter (fun f => f ≠ finalizerName) ∧
      (reconcile mr w env).requeueAfter = none ∧
      ACall.pvcDelete ∉ (reconcile mr w env).calls) := by
  refine ⟨?_, ?_, ?_⟩
  · intro e w1 h
    simp only [clientDeleteVM, h]
  · intro w1 h
    simp only [clientDeleteVM, h]
  · intro mr hcfg hdel hres
    have hc : clientDeleteVM w env =
        ⟨Except.error KErr.notFound, (apiVMDelete w env).2, [ACall.vmDelete]⟩ := by
      rcases hvd : apiVMDelete w env with ⟨res, w1⟩
      cases res with
      | error e =>
          simp only [clientDeleteVM, hvd] at hres ⊢
          injection hres with h
          subst h
          rfl
      | ok u =>
          simp only [clientDeleteVM, hvd] at hres
          simp at hres
    have hne : ¬(KErr.notFound ≠ KErr.notFound) := by simp
    refine ⟨?_, ?_, ?_⟩
    · simp only [reconcile, hcfg, hdel, if_true, reconcileDelete, hc, if_neg hne]
      split <;> rfl
    · simp only [reconcile, hcfg, hdel, if_true, reconcileDelete, hc, if_neg hne]
    · simp only [reconcile, hcfg, hdel, if_true, reconcileDelete, hc, if_neg hne]
      decide

/-- Witness for `deleteVM_protocol`: applied with an absent VM (error
branch), with both resources present (success branch), and at the
reconciler level for a record in deletion with the VM already gone. -/
theorem deleteVM_protocol_witness :
    clientDeleteVM w0 envOk = ⟨Except.error KErr.notFound, w0, [ACall.vmDelete]⟩ ∧
    clientDeleteVM ⟨true, true, false⟩ envOk =
      ⟨Except.ok (), ⟨false, false, false⟩, [ACall.vmDelete, ACall.pvcDelete]⟩ ∧
    ((reconcile mrDeleting ⟨true, false, false⟩ envOk).mr.finalizers = [] ∧
      (reconcile mrDeleting ⟨true, false, false⟩ envOk).requeueAfter = none ∧
      ACall.pvcDelete ∉ (reconcile mrDeleting ⟨true, false, false⟩ envOk).calls) :=
  ⟨(deleteVM_protocol w0 envOk).1 KErr.notFound w0 rfl,
   ((deleteVM_protocol ⟨true, true, false⟩ envOk).2.1 ⟨true, false, false⟩ rfl).trans rfl,
   by
     have h := (deleteVM_protocol ⟨true, false, false⟩ envOk).2.2 mrDeleting rfl rfl rfl
     exact ⟨h.1.trans (by decide), h.2.1, h.2.2⟩⟩

/-- C9: `buildVM` attaches no cloud-init seed volume or disk at all
when the user-data payload is empty — any network-configuration
payload is silently dropped in that case — and attaches the
network-configuration payload (base64-encoded) exactly when the
user-data payload is non-empty and the network payload itself is
non-empty. -/
theorem buildVM_cloudinit (ns : String) (opts : VMCreateOptions) (pvcName networkName : String) :
    (opts.userData = "" →
      (buildVM ns opts pvcName networkName).volumes = [VMVolume.pvc "rootdisk" pvcName] ∧
      (buildVM ns opts pvcName networkName).disks = [⟨"rootdisk", some 1, "virtio"⟩]) ∧
    (opts.userData ≠ "" →
      (buildVM ns opts pvcName networkName).volumes =
        [VMVolume.pvc "rootdisk" pvcName,
          VMVolume.cloudInit "cloudinit" (base64Encode opts.userData)
            (if opts.networkData ≠ "" then some (base64Encode opts.networkData) else none)] ∧
      (buildVM ns opts pvcName networkName).disks =
        [⟨"rootdisk", some 1, "virtio"⟩, ⟨"cloudinit", none, "virtio"⟩]) := by
  constructor
  · intro h
    simp [buildVM, h]
  · intro h
    simp [buildVM, h]

/-- Witness for `buildVM_cloudinit`: empty user data with a non-empty
network payload yields no cloud-init volume; non-empty user data with a
network payload yields the seed volume carrying both base64 payloads. -/
theorem buildVM_cloudinit_witness :
    ((buildVM "default" ⟨"m", 1, 512, 10, "img", "net", "", "netcfg", []⟩ "m-rootdisk" "net").volumes
        = [VMVolume.pvc "rootdisk" "m-rootdisk"] ∧
      (buildVM "default" ⟨"m", 1, 512, 10, "img", "net", "", "netcfg", []⟩ "m-rootdisk" "net").disks
        = [⟨"rootdisk", some 1, "virtio"⟩]) ∧
    ((buildVM "default" ⟨"m", 1, 512, 10, "img", "net", "hi", "yo", []⟩ "m-rootdisk" "net").volumes
        = [VMVolume.pvc "rootdisk" "m-rootdisk",
            VMVolume.cloudInit "cloudinit" "aGk=" (some "eW8=")]) :=
  ⟨(buildVM_cloudinit "default" ⟨"m", 1, 512, 10, "img", "net", "", "netcfg", []⟩
      "m-rootdisk" "net").1 rfl,
   (((buildVM_cloudinit "default" ⟨"m", 1, 512, 10, "img", "net", "hi", "yo", []⟩
      "m-rootdisk" "net").2 (by decide)).1).trans (by decide)⟩

/-- C4 counterexample: the code's filter does not verify IPv4 syntax —
an interface whose address is not syntactically IPv4 at all (no colon,
no `169.254.` prefix) is selected.  This refutes the claim that the
selected address is always syntactically IPv4. -/
theorem selection_not_ipv4 :
    selectIface [⟨"not-an-ip", "mm:mm"⟩] = some ⟨"not-an-ip", "mm:mm"⟩ ∧
    isIPv4 "not-an-ip" = false := by
  constructor
  · rfl
  · decide

/-- C4 (amended): the selected address is the first entry in list order
whose address is non-empty, contains no colon, and does not start with
`169.254.` — the code does not verify IPv4 syntax beyond excluding
colon-containing addresses; an empty qualifying set is not an error
(the status read still succeeds, with an empty address); for the
concrete list `[169.254.1.5, fe80::1, 10.0.0.7]` the selected address
is `10.0.0.7`. -/
theorem address_selection_policy :
    (∀ ip, isUsableIP ip = true ↔
      (strContainsChar ip ':' = false ∧ strStartsWith ip "169.254." = false)) ∧
    (∀ l i, selectIface l = some i → usableIface i = true ∧
      ∃ pre post, l = pre ++ i :: post ∧ ∀ j ∈ pre, usableIface j = false) ∧
    (∀ l, selectIface l = none → ∀ j ∈ l, usableIface j = false) ∧
    (∀ w env, env.vmGetFault = none → w.vmExists = true → w.vmiExists = true →
      selectIface env.vmiInterfaces = none →
      (clientGetVMStatus w env).result =
        Except.ok { present := true, ready := env.vmReady, phase := env.vmPrintableStatus,
                    ipAddress := "", macAddress := "" }) ∧
    (∃ st, (clientGetVMStatus ⟨true, true, true⟩ envIfaces).result = Except.ok st ∧
      st.ipAddress = "10.0.0.7" ∧ st.macAddress = "aa:bb:cc") := by
  refine ⟨?_, ?_, ?_, ?_, ?_⟩
  · intro ip
    unfold isUsableIP
    constructor
    · intro h
      by_cases h1 : strContainsChar ip ':'
      · rw [if_pos h1] at h; exact absurd h (by simp)
      · by_cases h2 : strStartsWith ip "169.254."
        · rw [if_neg h1, if_pos h2] at h; exact absurd h (by simp)
        · exact ⟨by simpa using h1, by simpa using h2⟩
    · intro ⟨h1, h2⟩
      rw [if_neg (by simp [h1]), if_neg (by simp [h2])]
  · intro l i h
    exact find?_decomp _ l i h
  · intro l h j hj
    have h2 := List.find?_eq_none.mp h j hj
    exact Bool.eq_false_iff.mpr h2
  · intro w env hf hvm hvmi hsel
    simp only [clientGetVMStatus, apiVMGet, hf, hvm, hvmi, if_true, hsel]
  · exact ⟨_, rfl, rfl, rfl⟩

/-- Witness for `address_selection_policy`: the filter equivalence at a
link-local address, the first-match decomposition at the spec §8 list,
the none case at an all-IPv6 list, and the no-error case at a world
whose VMI reports no interfaces. -/
theorem address_selection_policy_witness :
    (isUsableIP "169.254.1.5" = true ↔
      (strContainsChar "169.254.1.5" ':' = false ∧
        strStartsWith "169.254.1.5" "169.254." = false)) ∧
    (usableIface ⟨"10.0.0.7", "aa:bb:cc"⟩ = true ∧
      ∃ pre post,
        [VMIInterface.mk "169.254.1.5" "ll:ll", ⟨"fe80::1", "v6:v6"⟩, ⟨"10.0.0.7", "aa:bb:cc"⟩] =
          pre ++ VMIInterface.mk "10.0.0.7" "aa:bb:cc" :: post ∧
        ∀ j ∈ pre, usableIface j = false) ∧
    (∀ j ∈ [VMIInterface.mk "fe80::1" "v6:v6"], usableIface j = false) ∧
    (clientGetVMStatus ⟨true, true, true⟩ envOk).result =
      Except.ok { present := true, ready := false, phase := "Starting",
                  ipAddress := "", macAddress := "" } :=
  ⟨address_selection_policy.1 "169.254.1.5",
   address_selection_policy.2.1 _ _ rfl,
   address_selection_policy.2.2.1 [⟨"fe80::1", "v6:v6"⟩] rfl,
   address_selection_policy.2.2.2.1 ⟨true, true, true⟩ envOk rfl rfl rfl rfl⟩

/-- C2 counterexample: an `Unavailable` fault injected into the
Pending-phase create call moves the phase to `Failed` and records a
failure — the code does not distinguish transient from permanent error
classes on the create path, refuting the claim that an `Unavailable`
error during the Pending-phase create leaves the phase unchanged. -/
theorem pending_unavailable_fails :
    mrPending.status.phase = "Pending" ∧
    (reconcile mrPending w0 envUnavail).mr.status.phase = "Failed" ∧
    (reconcile mrPending w0 envUnavail).mr.status.failureReason = reasonProviderError := by
  refine ⟨rfl, by decide, by decide⟩

/-- C2 (amended): a transient error from the status read never changes
the record in the `Creating` and `Running` phases — it only schedules a
retry (short delay in `Creating`, long delay in `Running`) with no
status write; but during the Pending-phase create call, every error
other than `AlreadyExists` — the transient `Unavailable` class
included — moves the phase to `Failed` and records a provider-error
failure. -/
theorem transient_error_policy (mr : MachineRequest) (w : World) (env : Env)
    (hcfg : env.configOutcome = ConfigOutcome.ok) (hdel : mr.deletionTimestamp = none)
    (hfin : finalizerName ∈ mr.finalizers) :
    (mr.status.phase = "Creating" → ∀ e, e ≠ KErr.notFound →
      (clientGetVMStatus w env).result = Except.error e →
      (reconcile mr w env).mr = mr ∧
      (reconcile mr w env).requeueAfter = some requeueShort ∧
      (reconcile mr w env).statusWrites = 0) ∧
    (mr.status.phase = "Running" → ∀ e, e ≠ KErr.notFound →
      (clientGetVMStatus w env).result = Except.error e →
      (reconcile mr w env).mr = mr ∧
      (reconcile mr w env).requeueAfter = some requeueLong ∧
      (reconcile mr w env).statusWrites = 0) ∧
    ((mr.status.phase = "" ∨ mr.status.phase = "Pending") → ∀ e, e ≠ KErr.alreadyExists →
      (clientCreateVM (pendingOpts mr) env.cfg w env).result = Except.error e →
      (reconcile mr w env).mr.status.phase = "Failed" ∧
      (reconcile mr w env).mr.status.failureReason = reasonProviderError) := by
  refine ⟨?_, ?_, ?_⟩
  · intro hp e he hres
    simp [reconcile, hcfg, hdel, hp, if_pos hfin, reconcileCreating, hres, if_neg he]
  · intro hp e he hres
    simp [reconcile, hcfg, hdel, hp, if_pos hfin, reconcileRunning, hres, if_neg he]
  · intro hp e he hres
    simp only [reconcile, hcfg, hdel, Option.isSome_none, Bool.false_eq_true, if_false,
      if_pos hfin, if_pos hp, reconcilePending, hres, if_neg he,
      updateStatusError, setFailure]
    exact ⟨trivial, trivial⟩

/-- Witness for `transient_error_policy`: an `Unavailable` status-read
fault in `Creating` and `Running` leaves the concrete records
untouched, and an `Unavailable` create fault in `Pending` lands in
`Failed`. -/
theorem transient_error_policy_witness :
    ((reconcile mrCreating w0 envGetFault).mr = mrCreating ∧
      (reconcile mrCreating w0 envGetFault).requeueAfter = some requeueShort ∧
      (reconcile mrCreating w0 envGetFault).statusWrites = 0) ∧
    ((reconcile mrRunning w0 envGetFault).mr = mrRunning ∧
      (reconcile mrRunning w0 envGetFault).requeueAfter = some requeueLong ∧
      (reconcile mrRunning w0 envGetFault).statusWrites = 0) ∧
    ((reconcile mrPending w0 envUnavail).mr.status.phase = "Failed" ∧
      (reconcile mrPending w0 envUnavail).mr.status.failureReason = reasonProviderError) :=
  ⟨(transient_error_policy mrCreating w0 envGetFault rfl rfl (by decide)).1
      rfl KErr.unavailable (by decide) rfl,
   (transient_error_policy mrRunning w0 envGetFault rfl rfl (by decide)).2.1
      rfl KErr.unavailable (by decide) rfl,
   (transient_error_policy mrPending w0 envUnavail rfl rfl (by decide)).2.2
      (Or.inr rfl) KErr.unavailable (by decide) rfl⟩

/-- C8: a `NotFound` on the status read while the phase is `Running`
moves the phase to `Failed` with reason `VMDeleted` ("VM was deleted
externally") and the `Ready` condition set to `False`; and `Failed` is
terminal — a pass over a `Failed` record (absent deletion intent)
performs no external call, no status write, no phase change, and
requests no requeue. -/
theorem running_vanished_terminal (mr : MachineRequest) (w : World) (env : Env)
    (hcfg : env.configOutcome = ConfigOutcome.ok) (hdel : mr.deletionTimestamp = none)
    (hfin : finalizerName ∈ mr.finalizers) :
    (mr.status.phase = "Running" →
      (clientGetVMStatus w env).result = Except.error KErr.notFound →
      (reconcile mr w env).mr.status.phase = "Failed" ∧
      (reconcile mr w env).mr.status.failureReason = "VMDeleted" ∧
      (reconcile mr w env).mr.status.failureMessage = "VM was deleted externally" ∧
      (⟨"Ready", "False", "VMDeleted", "VM was deleted externally", mr.generation⟩ : Condition)
        ∈ (reconcile mr w env).mr.status.conditions) ∧
    (mr.status.phase = "Failed" →
      (reconcile mr w env).mr = mr ∧ (reconcile mr w env).calls = [] ∧
      (reconcile mr w env).requeue = false ∧ (reconcile mr w env).requeueAfter = none ∧
      (reconcile mr w env).statusWrites = 0) := by
  constructor
  · intro hp hres
    have hnice : ¬("Running" = "" ∨ "Running" = "Pending") := by decide
    simp only [reconcile, hcfg, hdel, Option.isSome_none, Bool.false_eq_true, if_false,
      if_pos hfin, hp, if_neg hnice, if_neg (by decide : ¬("Running" = "Creating")),
      if_pos (rfl : "Running" = "Running"), reconcileRunning, hres,
      if_pos (rfl : KErr.notFound = KErr.notFound), setFailure]
    exact ⟨rfl, rfl, rfl, setStatusCondition_mem _ _⟩
  · intro hp
    simp only [reconcile, hcfg, hdel, Option.isSome_none, Bool.false_eq_true, if_false,
      if_pos hfin, hp]
    refine ⟨rfl, rfl, rfl, rfl, rfl⟩

/-- Witness for `running_vanished_terminal`: the concrete `Running`
record over a world whose VM is gone lands in terminal `Failed`; the
concrete `Failed` record is left untouched. -/
theorem running_vanished_terminal_witness :
    ((reconcile mrRunning w0 envOk).mr.status.phase = "Failed" ∧
      (reconcile mrRunning w0 envOk).mr.status.failureReason = "VMDeleted" ∧
      (reconcile mrRunning w0 envOk).mr.status.failureMessage = "VM was deleted externally" ∧
      (⟨"Ready", "False", "VMDeleted", "VM was deleted externally", 1⟩ : Condition)
        ∈ (reconcile mrRunning w0 envOk).mr.status.conditions) ∧
    ((reconcile mrFailed w0 envOk).mr = mrFailed ∧
      (reconcile mrFailed w0 envOk).calls = [] ∧
      (reconcile mrFailed w0 envOk).requeue = false ∧
      (reconcile mrFailed w0 envOk).requeueAfter = none ∧
      (reconcile mrFailed w0 envOk).statusWrites = 0) :=
  ⟨(running_vanished_terminal mrRunning w0 envOk rfl rfl (by decide)).1 rfl rfl,
   (running_vanished_terminal mrFailed w0 envOk rfl rfl (by decide)).2 rfl⟩

/-- C10: during Running-phase drift handling, when the observed address
is non-empty and differs from the recorded one, exactly one status
write happens and it changes only the IP address and the last-updated
stamp — MAC address, provider ID, phase and conditions are untouched
even if the observed MAC changed; when the observed address is empty or
equal to the recorded one, no status write happens and the record is
returned unchanged. -/
theorem running_drift_frame (mr : MachineRequest) (w : World) (env : Env) (st : VMStatus)
    (hcfg : env.configOutcome = ConfigOutcome.ok) (hdel : mr.deletionTimestamp = none)
    (hfin : finalizerName ∈ mr.finalizers) (hp : mr.status.phase = "Running")
    (hst : (clientGetVMStatus w env).result = Except.ok st) :
    (st.ipAddress ≠ "" → st.ipAddress ≠ mr.status.ipAddress →
      (reconcile mr w env).mr = { mr with status := { mr.status with
          ipAddress := st.ipAddress, lastUpdated := some env.time } } ∧
      (reconcile mr w env).statusWrites = 1 ∧
      (reconcile mr w env).requeueAfter = some requeueLong) ∧
    (st.ipAddress = "" ∨ st.ipAddress = mr.status.ipAddress →
      (reconcile mr w env).mr = mr ∧
      (reconcile mr w env).statusWrites = 0 ∧
      (reconcile mr w env).requeueAfter = some requeueLong) := by
  have hnice : ¬("Running" = "" ∨ "Running" = "Pending") := by decide
  constructor
  · intro h1 h2
    simp only [reconcile, hcfg, hdel, Option.isSome_none, Bool.false_eq_true, if_false,
      if_pos hfin, hp, if_neg hnice, if_neg (by decide : ¬("Running" = "Creating")),
      if_pos (rfl : "Running" = "Running"), reconcileRunning, hst,
      if_pos (And.intro h1 h2)]
    exact ⟨rfl, rfl, rfl⟩
  · intro h
    have hneg : ¬(st.ipAddress ≠ "" ∧ st.ipAddress ≠ mr.status.ipAddress) := by
      rcases h with h | h
      · intro hc; exact hc.1 h
      · intro hc; exact hc.2 h
    simp only [reconcile, hcfg, hdel, Option.isSome_none, Bool.false_eq_true, if_false,
      if_pos hfin, hp, if_neg hnice, if_neg (by decide : ¬("Running" = "Creating")),
      if_pos (rfl : "Running" = "Running"), reconcileRunning, hst, if_neg hneg]
    exact ⟨rfl, rfl, rfl⟩

/-- Witness for `running_drift_frame`: the concrete `Running` record
(recorded address `10.0.0.9`) with an observed address `10.0.0.7` gets
exactly the address/stamp update; with an observed address equal to the
recorded one it is returned unchanged. -/
theorem running_drift_frame_witness :
    ((reconcile mrRunning ⟨true, true, true⟩ envIfaces).mr =
      { mrRunning with status := { mrRunning.status with
          ipAddress := "10.0.0.7", lastUpdated := some 100 } } ∧
      (reconcile mrRunning ⟨true, true, true⟩ envIfaces).statusWrites = 1 ∧
      (reconcile mrRunning ⟨true, true, true⟩ envIfaces).requeueAfter = some requeueLong) ∧
    ((reconcile mrRunning ⟨true, true, true⟩ envSameIP).mr = mrRunning ∧
      (reconcile mrRunning ⟨true, true, true⟩ envSameIP).statusWrites = 0 ∧
      (reconcile mrRunning ⟨true, true, true⟩ envSameIP).requeueAfter = some requeueLong) :=
  ⟨(running_drift_frame mrRunning ⟨true, true, true⟩ envIfaces
      { present := true, ready := true, phase := "Running",
        ipAddress := "10.0.0.7", macAddress := "aa:bb:cc" }
      rfl rfl (by decide) rfl rfl).1 (by decide) (by decide),
   (running_drift_frame mrRunning ⟨true, true, true⟩ envSameIP
      { present := true, ready := false, phase := "Starting",
        ipAddress := "10.0.0.9", macAddress := "zz:zz" }
      rfl rfl (by decide) rfl rfl).2 (Or.inr rfl)⟩

/-- C5: issuing the create sequence twice for the same identity
(simulating redelivery of the same trigger) yields exactly one logical
disk+VM pair and never records a failure: the first delivery creates
both resources and moves the phase to `Creating`; the redelivered
create hits `AlreadyExists`, which is treated identically to success —
the world is unchanged (still exactly one pair) and the phase advances
to `Creating`, not `Failed`, with the failure fields untouched. -/
theorem create_redelivery_idempotent (mr : MachineRequest) (env1 env2 : Env)
    (h1 : env1.configOutcome = ConfigOutcome.ok) (h2 : env2.configOutcome = ConfigOutcome.ok)
    (hf1 : noFaults env1) (hf2 : noFaults env2)
    (hdel : mr.deletionTimestamp = none) (hfin : finalizerName ∈ mr.finalizers)
    (hph : mr.status.phase = "" ∨ mr.status.phase = "Pending")
    (himg : (if mr.spec.image = "" then env1.cfg.imageName else mr.spec.image) ≠ "")
    (himg2 : (if mr.spec.image = "" then env2.cfg.imageName else mr.spec.image) ≠ "") :
    (reconcile mr w0 env1).world.pvcExists = true ∧
    (reconcile mr w0 env1).world.vmExists = true ∧
    (reconcile mr w0 env1).mr.status.phase = "Creating" ∧
    (reconcile mr w0 env1).mr.status.failureReason = "" ∧
    (reconcile mr (reconcile mr w0 env1).world env2).world = (reconcile mr w0 env1).world ∧
    (reconcile mr (reconcile mr w0 env1).world env2).mr.status.phase = "Creating" ∧
    (reconcile mr (reconcile mr w0 env1).world env2).mr.status.failureReason =
      mr.status.failureReason := by
  obtain ⟨hp1, hv1, hg1, hd1, hpd1⟩ := hf1
  obtain ⟨hp2, hv2, hg2, hd2, hpd2⟩ := hf2
  simp only [reconcile, h1, h2, hdel, Option.isSome_none, Bool.false_eq_true, if_false,
    if_pos hfin, if_pos hph, reconcilePending, clientCreateVM, createImagePVC, apiPVCCreate,
    apiVMCreate, apiPVCDelete, hp1, hv1, hpd1, hp2, hv2, hpd2, pendingOpts, w0,
    if_neg himg, if_neg himg2, updatePhase]
  simp

/-- Witness for `create_redelivery_idempotent` at the concrete pending
record under the fault-free environment, twice. -/
theorem create_redelivery_idempotent_witness :
    (reconcile mrPending w0 envOk).world.pvcExists = true ∧
    (reconcile mrPending w0 envOk).world.vmExists = true ∧
    (reconcile mrPending w0 envOk).mr.status.phase = "Creating" ∧
    (reconcile mrPending w0 envOk).mr.status.failureReason = "" ∧
    (reconcile mrPending (reconcile mrPending w0 envOk).world envOk).world =
      (reconcile mrPending w0 envOk).world ∧
    (reconcile mrPending (reconcile mrPending w0 envOk).world envOk).mr.status.phase =
      "Creating" ∧
    (reconcile mrPending (reconcile mrPending w0 envOk).world envOk).mr.status.failureReason =
      mrPending.status.failureReason :=
  create_redelivery_idempotent mrPending envOk envOk rfl rfl
    ⟨rfl, rfl, rfl, rfl, rfl⟩ ⟨rfl, rfl, rfl, rfl, rfl⟩ rfl (by decide)
    (Or.inr rfl) (by decide) (by decide)

theorem reconcilePending_cases (mr : MachineRequest) (w : World) (env : Env) :
    (reconcilePending mr w env).mr.finalizers = mr.finalizers ∧
    (reconcilePending mr w env).mr.deletionTimestamp = mr.deletionTimestamp ∧
    ((reconcilePending mr w env).mr.status.phase = "Creating" ∨
      ((reconcilePending mr w env).mr.status.phase = "Failed" ∧
        (reconcilePending mr w env).mr.status.failureReason = reasonProviderError)) := by
  rcases hA : clientCreateVM (pendingOpts mr) env.cfg w env with ⟨res, w', cs⟩
  cases res with
  | error e =>
      by_cases he : e = KErr.alreadyExists
      · simp [reconcilePending, hA, he, updatePhase]
      · simp [reconcilePending, hA, if_neg he, updateStatusError, setFailure]
  | ok uid => simp [reconcilePending, hA]

theorem reconcileCreating_cases (mr : MachineRequest) (w : World) (env : Env) :
    (reconcileCreating mr w env).mr.finalizers = mr.finalizers ∧
    (reconcileCreating mr w env).mr.deletionTimestamp = mr.deletionTimestamp ∧
    (((clientGetVMStatus w env).result = Except.error KErr.notFound ∧
        (reconcileCreating mr w env).mr.status.phase = "Pending") ∨
      (reconcileCreating mr w env).mr.status.phase = "Running" ∨
      (reconcileCreating mr w env).mr.status.phase = mr.status.phase) := by
  rcases hA : clientGetVMStatus w env with ⟨res, w', cs⟩
  cases res with
  | error e =>
      by_cases he : e = KErr.notFound
      · subst he
        simp [reconcileCreating, hA, updatePhase]
      · simp [reconcileCreating, hA, if_neg he]
  | ok st =>
      by_cases hip : st.ipAddress = ""
      · simp [reconcileCreating, hA, hip]
      · simp [reconcileCreating, hA, hip]

theorem reconcileRunning_cases (mr : MachineRequest) (w : World) (env : Env) :
    (reconcileRunning mr w env).mr.finalizers = mr.finalizers ∧
    (reconcileRunning mr w env).mr.deletionTimestamp = mr.deletionTimestamp ∧
    ((reconcileRunning mr w env).mr.status.phase = "Failed" ∨
      (reconcileRunning mr w env).mr.status.phase = mr.status.phase) := by
  rcases hA : clientGetVMStatus w env with ⟨res, w', cs⟩
  cases res with
  | error e =>
      by_cases he : e = KErr.notFound
      · subst he
        simp [reconcileRunning, hA, setFailure]
      · simp [reconcileRunning, hA, if_neg he]
  | ok st =>
      by_cases hip : st.ipAddress ≠ "" ∧ st.ipAddress ≠ mr.status.ipAddress
      · simp [reconcileRunning, hA, if_pos hip]
      · simp [reconcileRunning, hA, if_neg hip]

theorem reconcileDelete_cases (mr : MachineRequest) (w : World) (env : Env) :
    (reconcileDelete mr w env).mr.deletionTimestamp = mr.deletionTimestamp ∧
    (reconcileDelete mr w env).mr.status.phase = "Deleting" ∧
    ((reconcileDelete mr w env).mr.finalizers = mr.finalizers ∨
      (reconcileDelete mr w env).mr.finalizers =
        mr.finalizers.filter (fun f => f ≠ finalizerName)) := by
  rcases hA : clientDeleteVM w env with ⟨res, w', cs⟩
  have hphase : ∀ n,
      ((if mr.status.phase ≠ "Deleting" then
          ({ mr with status := { mr.status with
              phase := "Deleting", lastUpdated := some env.time } }, 1)
        else (mr, n)) : MachineRequest × Nat).1.status.phase = "Deleting" := by
    intro n
    split
    · rfl
    · next h => simpa using h
  cases res with
  | error e =>
      by_cases he : e ≠ KErr.notFound
      · simp only [reconcileDelete, hA, if_pos he]
        refine ⟨?_, ?_, Or.inl ?_⟩ <;> split <;> simp_all
      · simp only [reconcileDelete, hA, if_neg he]
        refine ⟨?_, ?_, Or.inr ?_⟩ <;> split <;> simp_all
  | ok u =>
      simp only [reconcileDelete, hA]
      refine ⟨?_, ?_, Or.inr ?_⟩ <;> split <;> simp_all

theorem updateStatusError_phase (mr : MachineRequest) (w : World) (calls : List ACall)
    (r m : String) :
    (updateStatusError mr w calls r m).mr.status.phase = "Failed" ∧
    (updateStatusError mr w calls r m).mr.status.failureReason = r ∧
    (updateStatusError mr w calls r m).mr.finalizers = mr.finalizers ∧
    (updateStatusError mr w calls r m).mr.deletionTimestamp = mr.deletionTimestamp := by
  simp [updateStatusError, setFailure]

/-- Exhaustive enumeration of how one pass can change the phase. -/
theorem reconcile_phase_cases (mr : MachineRequest) (w : World) (env : Env) :
    (reconcile mr w env).mr.status.phase = mr.status.phase ∨
    (reconcile mr w env).mr.status.phase = "Failed" ∨
    (reconcile mr w env).mr.status.phase = "Deleting" ∨
    ((reconcile mr w env).mr.status.phase = "Creating" ∧
      (mr.status.phase = "" ∨ mr.status.phase = "Pending")) ∨
    ((reconcile mr w env).mr.status.phase = "Running" ∧ mr.status.phase = "Creating") ∨
    ((reconcile mr w env).mr.status.phase = "Pending" ∧ mr.status.phase = "Creating" ∧
      (clientGetVMStatus w env).result = Except.error KErr.notFound) ∨
    ((reconcile mr w env).mr.status.phase = "Pending" ∧ forwardRank mr.status.phase = none) := by
  cases hco : env.configOutcome with
  | configError m =>
      exact Or.inr (Or.inl (by simp [reconcile, hco, updateStatusError, setFailure]))
  | wrongProvider => exact Or.inl (by simp [reconcile, hco])
  | clientError m =>
      exact Or.inr (Or.inl (by simp [reconcile, hco, updateStatusError, setFailure]))
  | ok =>
      by_cases hdel : mr.deletionTimestamp.isSome
      · have h := reconcileDelete_cases mr w env
        exact Or.inr (Or.inr (Or.inl (by simp [reconcile, hco, hdel, h.2.1])))
      · by_cases hfin : finalizerName ∈ mr.finalizers
        · by_cases hp0 : mr.status.phase = "" ∨ mr.status.phase = "Pending"
          · have h := reconcilePending_cases mr w env
            have hred : reconcile mr w env = reconcilePending mr w env := by
              simp [reconcile, hco, hdel, hfin, hp0]
            rcases h.2.2 with hc | hf
            · exact Or.inr (Or.inr (Or.inr (Or.inl ⟨by rw [hred]; exact hc, hp0⟩)))
            · exact Or.inr (Or.inl (by rw [hred]; exact hf.1))
          · by_cases hp1 : mr.status.phase = "Creating"
            · have h := reconcileCreating_cases mr w env
              have hred : reconcile mr w env = reconcileCreating mr w env := by
                simp [reconcile, hco, hdel, hfin, hp0, hp1]
              rcases h.2.2 with ⟨hnf, hp⟩ | hr | hsame
              · exact Or.inr (Or.inr (Or.inr (Or.inr (Or.inr (Or.inl
                  ⟨by rw [hred]; exact hp, hp1, hnf⟩)))))
              · exact Or.inr (Or.inr (Or.inr (Or.inr (Or.inl ⟨by rw [hred]; exact hr, hp1⟩))))
              · exact Or.inl (by rw [hred]; exact hsame)
            · by_cases hp2 : mr.status.phase = "Running"
              · have h := reconcileRunning_cases mr w env
                have hred : reconcile mr w env = reconcileRunning mr w env := by
                  simp [reconcile, hco, hdel, hfin, hp0, hp1, hp2]
                rcases h.2.2 with hf | hsame
                · exact Or.inr (Or.inl (by rw [hred]; exact hf))
                · exact Or.inl (by rw [hred]; exact hsame)
              · by_cases hp3 : mr.status.phase = "Failed"
                · exact Or.inl (by simp [reconcile, hco, hdel, hfin, hp0, hp1, hp2, hp3])
                · refine Or.inr (Or.inr (Or.inr (Or.inr (Or.inr (Or.inr ⟨?_, ?_⟩)))))
                  · simp [reconcile, hco, hdel, hfin, hp0, hp1, hp2, hp3, updatePhase]
                  · simp [forwardRank, hp0, hp1, hp2]
        · exact Or.inl (by simp [reconcile, hco, hdel, hfin])

/-- C7 counterexample: a reachable execution moves the phase from
`Creating` back to `Pending` — after the finalizer pass and the create
pass, the platform deletes the VM externally and the next pass in
`Creating` observes `NotFound`, resetting the phase to `Pending`.  This
is a backward transition beyond the two exceptional resets the claim
admits. -/
theorem creating_back_to_pending :
    Reach stepB.mr worldB ∧
    stepB.mr.status.phase = "Creating" ∧
    stepC.mr.status.phase = "Pending" ∧
    movesBackward stepB.mr.status.phase stepC.mr.status.phase := by
  refine ⟨?_, by decide, by decide, ⟨1, 0, by decide, by decide, by decide⟩⟩
  have h0 : Reach mr0 w0 := Reach.init mr0 ⟨rfl, rfl, rfl⟩
  have h1 : Reach stepA.mr stepA.world := Reach.step mr0 w0 envOk h0
  have h2 : Reach stepB.mr stepB.world := Reach.step stepA.mr stepA.world envOk h1
  exact Reach.extDeleteVM stepB.mr stepB.world h2

/-- C7 (amended): the phase moves backward along the forward path
(Pending → Creating → Running) in exactly one situation — phase
`Creating` with a `NotFound` status read, resetting to `Pending`; the
two resets the spec names also hold: an unrecognized phase value (one
outside the five known phases) resets to `Pending` with an immediate
requeue, and a `NotFound` while `Running` moves to terminal `Failed`. -/
theorem phase_monotonic_resets (mr : MachineRequest) (w : World) (env : Env) :
    (movesBackward mr.status.phase (reconcile mr w env).mr.status.phase →
      mr.status.phase = "Creating" ∧
      (reconcile mr w env).mr.status.phase = "Pending" ∧
      (clientGetVMStatus w env).result = Except.error KErr.notFound) ∧
    (env.configOutcome = ConfigOutcome.ok → mr.deletionTimestamp = none →
      finalizerName ∈ mr.finalizers →
      forwardRank mr.status.phase = none → mr.status.phase ≠ "Failed" →
      (reconcile mr w env).mr.status.phase = "Pending" ∧
      (reconcile mr w env).requeue = true) ∧
    (env.configOutcome = ConfigOutcome.ok → mr.deletionTimestamp = none →
      finalizerName ∈ mr.finalizers → mr.status.phase = "Running" →
      (clientGetVMStatus w env).result = Except.error KErr.notFound →
      (reconcile mr w env).mr.status.phase = "Failed") := by
  refine ⟨?_, ?_, ?_⟩
  · intro hmb
    obtain ⟨a, b, ha, hb, hlt⟩ := hmb
    rcases reconcile_phase_cases mr w env with
      hq | hq | hq | ⟨hq, hp⟩ | ⟨hq, hp⟩ | ⟨hq, hp, hnf⟩ | ⟨hq, hp⟩
    · rw [hq, ha] at hb
      injection hb with h
      omega
    · rw [hq] at hb
      simp [forwardRank] at hb
    · rw [hq] at hb
      simp [forwardRank] at hb
    · rw [hq] at hb
      simp [forwardRank] at hb
      rcases hp with hp | hp <;> rw [hp] at ha <;> simp [forwardRank] at ha <;> omega
    · rw [hq] at hb
      rw [hp] at ha
      simp [forwardRank] at ha hb
      omega
    · exact ⟨hp, hq, hnf⟩
    · rw [hp] at ha
      cases ha
  · intro hco hdel hfin hrank hfail
    have hp0 : ¬(mr.status.phase = "" ∨ mr.status.phase = "Pending") := by
      intro h
      simp [forwardRank, h] at hrank
    have hp1 : mr.status.phase ≠ "Creating" := by
      intro h
      simp [forwardRank, h] at hrank
    have hp2 : mr.status.phase ≠ "Running" := by
      intro h
      simp [forwardRank, h] at hrank
    constructor <;>
      simp [reconcile, hco, hdel, hfin, hp0, hp1, hp2, hfail, updatePhase]
  · intro hco hdel hfin hp hnf
    simp [reconcile, hco, hdel, hfin, hp, reconcileRunning, hnf, setFailure]

/-- Witness for `phase_monotonic_resets`: the backward case at the
concrete `Creating` record over a VM-less world, the unknown-phase
reset at a record in phase `Provisioning`, and the vanished-while-
Running case at the concrete `Running` record. -/
theorem phase_monotonic_resets_witness :
    (mrCreating.status.phase = "Creating" ∧
      (reconcile mrCreating w0 envOk).mr.status.phase = "Pending" ∧
      (clientGetVMStatus w0 envOk).result = Except.error KErr.notFound) ∧
    ((reconcile mrUnknown w0 envOk).mr.status.phase = "Pending" ∧
      (reconcile mrUnknown w0 envOk).requeue = true) ∧
    (reconcile mrRunning w0 envOk).mr.status.phase = "Failed" :=
  ⟨(phase_monotonic_resets mrCreating w0 envOk).1
      ⟨1, 0, by decide, by decide, by decide⟩,
   (phase_monotonic_resets mrUnknown w0 envOk).2.1 rfl rfl (by decide) (by decide)
      (by decide),
   (phase_monotonic_resets mrRunning w0 envOk).2.2 rfl rfl (by decide) rfl rfl⟩

theorem clientDeleteVM_calls (w : World) (env : Env) :
    (clientDeleteVM w env).calls = [ACall.vmDelete] ∨
    (clientDeleteVM w env).calls = [ACall.vmDelete, ACall.pvcDelete] := by
  rcases hA : apiVMDelete w env with ⟨res, w1⟩
  cases res <;> simp [clientDeleteVM, hA]

theorem reconcileDelete_calls (mr : MachineRequest) (w : World) (env : Env) :
    (reconcileDelete mr w env).calls = (clientDeleteVM w env).calls := by
  rcases hA : clientDeleteVM w env with ⟨res, w', cs⟩
  cases res with
  | error e => by_cases he : e ≠ KErr.notFound <;> simp [reconcileDelete, hA, he]
  | ok u => simp [reconcileDelete, hA]

theorem reconcile_dispatch_finalizers (mr : MachineRequest) (w : World) (env : Env)
    (hco : env.configOutcome = ConfigOutcome.ok)
    (hdel : ¬mr.deletionTimestamp.isSome = true) (hfin : finalizerName ∈ mr.finalizers) :
    (reconcile mr w env).mr.finalizers = mr.finalizers := by
  by_cases hp0 : mr.status.phase = "" ∨ mr.status.phase = "Pending"
  · have hred : reconcile mr w env = reconcilePending mr w env := by
      simp [reconcile, hco, hdel, hfin, hp0]
    rw [hred]
    exact (reconcilePending_cases mr w env).1
  · by_cases hp1 : mr.status.phase = "Creating"
    · have hred : reconcile mr w env = reconcileCreating mr w env := by
        simp [reconcile, hco, hdel, hfin, hp0, hp1]
      rw [hred]
      exact (reconcileCreating_cases mr w env).1
    · by_cases hp2 : mr.status.phase = "Running"
      · have hred : reconcile mr w env = reconcileRunning mr w env := by
          simp [reconcile, hco, hdel, hfin, hp0, hp1, hp2]
        rw [hred]
        exact (reconcileRunning_cases mr w env).1
      · by_cases hp3 : mr.status.phase = "Failed"
        · simp [reconcile, hco, hdel, hfin, hp0, hp1, hp2, hp3]
        · simp [reconcile, hco, hdel, hfin, hp0, hp1, hp2, hp3, updatePhase]

theorem guardInv_preserved (mr : MachineRequest) (w : World) (env : Env)
    (h : guardInv mr) : guardInv (reconcile mr w env).mr := by
  cases hco : env.configOutcome with
  | configError m =>
      have hred : reconcile mr w env = updateStatusError mr w [] "ProviderConfigError" m := by
        simp [reconcile, hco]
      intro _
      refine Or.inr (Or.inr (Or.inr ⟨?_, Or.inl ?_⟩))
      · rw [hred]; exact (updateStatusError_phase mr w [] "ProviderConfigError" m).1
      · rw [hred]; exact (updateStatusError_phase mr w [] "ProviderConfigError" m).2.1
  | wrongProvider =>
      have hred : (reconcile mr w env).mr = mr := by simp [reconcile, hco]
      rw [hred]; exact h
  | clientError m =>
      have hred : reconcile mr w env = updateStatusError mr w [] "HarvesterClientError" m := by
        simp [reconcile, hco]
      intro _
      refine Or.inr (Or.inr (Or.inr ⟨?_, Or.inr ?_⟩))
      · rw [hred]; exact (updateStatusError_phase mr w [] "HarvesterClientError" m).1
      · rw [hred]; exact (updateStatusError_phase mr w [] "HarvesterClientError" m).2.1
  | ok =>
      by_cases hdel : mr.deletionTimestamp.isSome
      · intro hdt
        exfalso
        have h1 : (reconcile mr w env).mr.deletionTimestamp = mr.deletionTimestamp := by
          have hred : reconcile mr w env = reconcileDelete mr w env := by
            simp [reconcile, hco, hdel]
          rw [hred]
          exact (reconcileDelete_cases mr w env).1
        rw [h1] at hdt
        rw [hdt] at hdel
        simp at hdel
      · by_cases hfin : finalizerName ∈ mr.finalizers
        · intro _
          exact Or.inl (by
            rw [reconcile_dispatch_finalizers mr w env hco hdel hfin]
            exact hfin)
        · intro _
          exact Or.inl (by
            have hred : (reconcile mr w env).mr.finalizers =
                mr.finalizers ++ [finalizerName] := by
              simp [reconcile, hco, hdel, hfin]
            rw [hred]
            exact List.mem_append_right _ (by simp))

/-- C3 counterexample: a reachable state outside
Pending-before-attachment carries no guard token — one pass over a
fresh record whose ProviderConfig resolution fails persists phase
`Failed` while the finalizer was never added (the error path runs
before the finalizer check), refuting the claim that the token is
present in every reachable state except Pending before attachment. -/
theorem failed_without_guard_reachable :
    Reach (reconcile mr0 w0 envCfgErr).mr (reconcile mr0 w0 envCfgErr).world ∧
    (reconcile mr0 w0 envCfgErr).mr.status.phase = "Failed" ∧
    finalizerName ∉ (reconcile mr0 w0 envCfgErr).mr.finalizers ∧
    (reconcile mr0 w0 envCfgErr).mr.deletionTimestamp = none :=
  ⟨Reach.step mr0 w0 envCfgErr (Reach.init mr0 ⟨rfl, rfl, rfl⟩),
   by decide, by decide, by decide⟩

/-- C3 (amended): in every reachable state not in deletion, the guard
token is present except in `Pending`/unset phase before attachment and
in `Failed` reached through a ProviderConfig-resolution or
client-construction error (which run before the finalizer check); no
external create call is ever issued in a pass whose entry state lacks
the token; and the pass that adds the token persists exactly that
addition, issues no external call, and requests an immediate re-run. -/
theorem guard_token_protocol :
    (∀ mr w, Reach mr w → guardInv mr) ∧
    (∀ mr w env, finalizerName ∉ mr.finalizers →
      ∀ c ∈ (reconcile mr w env).calls, c ≠ ACall.pvcCreate ∧ c ≠ ACall.vmCreate) ∧
    (∀ mr w env, env.configOutcome = ConfigOutcome.ok → mr.deletionTimestamp = none →
      finalizerName ∉ mr.finalizers →
      (reconcile mr w env).mr = { mr with finalizers := mr.finalizers ++ [finalizerName] } ∧
      (reconcile mr w env).requeue = true ∧
      (reconcile mr w env).requeueAfter = none ∧
      (reconcile mr w env).calls = []) := by
  refine ⟨?_, ?_, ?_⟩
  · intro mr w hr
    induction hr with
    | init mr h => intro _; exact Or.inr (Or.inl h.1)
    | step mr w env hr ih => exact guardInv_preserved mr w env ih
    | extDeleteVM mr w hr ih => exact ih
    | markDeleted mr w t hr ih =>
        intro hdt
        simp at hdt
  · intro mr w env hfin c hc
    cases hco : env.configOutcome with
    | configError m => simp [reconcile, hco, updateStatusError] at hc
    | wrongProvider => simp [reconcile, hco] at hc
    | clientError m => simp [reconcile, hco, updateStatusError] at hc
    | ok =>
        by_cases hdel : mr.deletionTimestamp.isSome
        · have hred : reconcile mr w env = reconcileDelete mr w env := by
            simp [reconcile, hco, hdel]
          rw [hred, reconcileDelete_calls] at hc
          rcases clientDeleteVM_calls w env with hcs | hcs <;> rw [hcs] at hc <;>
            rcases List.mem_cons.mp hc with rfl | hc
          · exact ⟨by decide, by decide⟩
          · simp at hc
          · exact ⟨by decide, by decide⟩
          · rcases List.mem_singleton.mp hc with rfl
            exact ⟨by decide, by decide⟩
        · simp [reconcile, hco, hdel, hfin] at hc
  · intro mr w env hco hdel hfin
    refine ⟨?_, ?_, ?_, ?_⟩ <;>
      simp [reconcile, hco, hdel, hfin]

/-- Witness for `guard_token_protocol`: the invariant at the freshly
created record, the no-create property applied to the delete call trace
of a record deleted before attachment, and the token-adding pass at the
fresh record. -/
theorem guard_token_protocol_witness :
    guardInv mr0 ∧
    (ACall.vmDelete ≠ ACall.pvcCreate ∧ ACall.vmDelete ≠ ACall.vmCreate) ∧
    ((reconcile mr0 w0 envOk).mr = { mr0 with finalizers := [finalizerName] } ∧
      (reconcile mr0 w0 envOk).requeue = true ∧
      (reconcile mr0 w0 envOk).requeueAfter = none ∧
      (reconcile mr0 w0 envOk).calls = []) :=
  ⟨guard_token_protocol.1 mr0 w0 (Reach.init mr0 ⟨rfl, rfl, rfl⟩),
   guard_token_protocol.2.1 mrDel0 ⟨true, true, false⟩ envOk (by decide)
     ACall.vmDelete (by decide),
   by
     have h := guard_token_protocol.2.2 mr0 w0 envOk rfl rfl (by decide)
     exact ⟨h.1.trans (by decide), h.2.1, h.2.2.1, h.2.2.2⟩⟩

end ButlerHarvester
